import Mathlib

/-!
Verification of the Polyglot node-server mediator.

This file gives a shallow embedding, in Lean 4, of the parts of the
Polyglot source that the checked properties talk about:

* `polyglot/element_manager/isy/__init__.py` — the controller REST client
  (`request`, `get_stats`, `add_node_prefix`, `make_url` helpers);
* `polyglot/element_manager/isy/incoming.py` — the HTTP listener handlers
  (`rem_node_prefix`, `GenericNodeServerHandler.get`, `InstallHandler.on_finish`);
* `polyglot/nodeserver_manager.py` — the node-server supervisor
  (`NodeServerManager.start_server`, `NodeServer._recv_out`,
  `NodeServer._request_handler`, `NodeServer._mk_cmd`);
* `polyglot/config_manager.py` — config persistence (`encode`, `decode`,
  `write`) together with the `base64` primitives it calls.

Python dictionaries, strings and processes are modelled with explicit,
executable Lean data; machine-level concerns (wall-clock time, the network)
are modelled as explicit inputs (timestamps, lists of attempt outcomes).
-/

namespace Polyglot

/-! ## Node address prefixes

`isy/__init__.py`, `add_node_prefix`: builds the prefix
`'n{}_'.format(str(ns_profnum).zfill(3))` and prepends it to the node id.
`isy/incoming.py`, `rem_node_prefix`: drops the first five characters when
the address has at least five characters, otherwise returns it unchanged.
Strings are modelled as `List Char`; `str(n)` for a non-negative integer is
`Nat.toDigits 10 n`. -/

/-- Python `str(n)` for a natural number: its decimal digit characters. -/
def str_of_nat (n : Nat) : List Char := Nat.toDigits 10 n

/-- Python `s.zfill(3)`: left-pad with zero characters to width three. -/
def zfill3 (s : List Char) : List Char := List.replicate (3 - s.length) '0' ++ s

/-- `add_node_prefix(ns_profnum, nid)` from `isy/__init__.py`. -/
def add_node_prefix (ns_profnum : Nat) (nid : List Char) : List Char :=
  (('n' :: zfill3 (str_of_nat ns_profnum)) ++ ['_']) ++ nid

/-- `rem_node_prefix(node_address)` from `isy/incoming.py`. -/
def rem_node_prefix (node_address : List Char) : List Char :=
  if node_address.length ≥ 5 then node_address.drop 5 else node_address

theorem str_of_nat_length_le (p : Nat) (hp : p < 1000) :
    (str_of_nat p).length ≤ 3 := by
  have h := Nat.toDigitsCore_length 10 (by norm_num) (p + 1) p 3
    (by norm_num; omega) (by norm_num)
  simpa [str_of_nat, Nat.toDigits] using h

theorem zfill3_length (s : List Char) (h : s.length ≤ 3) :
    (zfill3 s).length = 3 := by
  simp [zfill3]; omega

/-- C10: removing the node prefix undoes adding it, for profile numbers of
at most three digits and arbitrary addresses. -/
theorem C10_node_prefix_roundtrip (p : Nat) (a : List Char) (hp : p < 1000) :
    rem_node_prefix ( add_node_prefix p a) = a := by
  have hz : (zfill3 (str_of_nat p)).length = 3 :=
    zfill3_length _ (str_of_nat_length_le p hp)
  have hlen : (('n' :: zfill3 (str_of_nat p)) ++ ['_']).length = 5 := by
    simp [hz]
  unfold rem_node_prefix add_node_prefix
  rw [if_pos]
  · rw [← hlen, List.drop_left]
  · simp [hz]; omega

/-- C10 witness: concrete instance with profile 1 and address `light`. -/
theorem C10_node_prefix_roundtrip_witness :
    (1 : Nat) < 1000 ∧
      rem_node_prefix ( add_node_prefix 1 ['l', 'i', 'g', 'h', 't']) =
        ['l', 'i', 'g', 'h', 't'] :=
  ⟨by decide, C10_node_prefix_roundtrip 1 ['l', 'i', 'g', 'h', 't'] (by decide)⟩

/-! ## Base-key selection in `NodeServerManager.start_server`

`nodeserver_manager.py`, lines 122–142.  The registry `self.servers` is an
`OrderedDict` keyed by the base string, modelled as an ordered association
list.  The loop

    while base in self.servers or base is None:
        base = random_string(5)

keeps drawing random strings until the key is fresh; the stream of
`random_string(5)` draws is modelled by the finite list `cands` of
successive candidates (`none` is returned when it is exhausted).  On
success the new server is stored under the chosen key
(`self.servers[base] = server`; for a fresh key an `OrderedDict` assignment
appends the entry). -/

/-- The base-selection `while` loop of `start_server`. -/
def choose_base (keys : List (List Char)) :
    Option (List Char) → List (List Char) → Option (List Char)
  | some b, cands =>
      if b ∈ keys then
        match cands with
        | [] => none
        | c :: cs => choose_base keys (some c) cs
      else some b
  | none, [] => none
  | none, c :: cs => choose_base keys (some c) cs

/-- `NodeServerManager.start_server`, restricted to its effect on the
registry: choose a base key, then store the freshly built server under it.
Returns the new registry together with the chosen key. -/
def start_server (servers : List (List Char × α)) (base : Option (List Char))
    (cands : List (List Char)) (server : α) :
    Option (List (List Char × α) × List Char) :=
  match choose_base (servers.map Prod.fst) base cands with
  | none => none
  | some b => some (servers ++ [(b, server)], b)

theorem choose_base_fresh (keys : List (List Char)) (base : Option (List Char))
    (cands : List (List Char)) (b : List Char)
    (h : choose_base keys base cands = some b) : b ∉ keys := by
  induction cands generalizing base with
  | nil =>
      match base with
      | none => simp [choose_base] at h
      | some b0 =>
          by_cases hb : b0 ∈ keys <;> simp [choose_base, hb] at h
          exact h ▸ hb
  | cons c cs ih =>
      match base with
      | none => exact ih (some c) h
      | some b0 =>
          by_cases hb : b0 ∈ keys
          · simp only [choose_base, if_pos hb] at h
            exact ih (some c) h
          · simp only [choose_base, if_neg hb, Option.some.injEq] at h
            exact h ▸ hb

theorem lookup_append_single {α : Type} (l : List (List Char × α))
    (b k : List Char) (x : α) (hk : k ≠ b) :
    (l ++ [(b, x)]).lookup k = l.lookup k := by
  induction l with
  | nil => simp [List.lookup, beq_eq_false_iff_ne.mpr hk]
  | cons hd tl ih =>
      obtain ⟨kh, vh⟩ := hd
      by_cases hkh : k = kh
      · subst hkh; simp [List.lookup]
      · simp [List.lookup, beq_eq_false_iff_ne.mpr hkh, ih]

/-- C4 counterexample: `start_server` called with a `base` that already
exists in the registry is *not* rejected — a fresh random key is drawn and
the server is started and stored under it. -/
theorem C4_counterexample :
    start_server [(['a'], (0 : Nat))] (some ['a']) [['x']] 1 =
        some ([(['a'], 0), (['x'], 1)], ['x']) ∧
      start_server [(['a'], (0 : Nat))] (some ['a']) [['x']] 1 ≠ none :=
  ⟨rfl, by simp [start_server, choose_base]⟩

/-- C4 (amended): when `start_server` is called with a `base` already in
the registry, the duplicate key is never used: the server is registered
under a freshly drawn key that is not in the registry, and every existing
entry — in particular the one under the duplicate key — is unchanged. -/
theorem C4_start_server_fresh_key {α : Type} (servers : List (List Char × α))
    (base : Option (List Char)) (cands : List (List Char)) (x : α)
    (out : List (List Char × α)) (b : List Char)
    (h : start_server servers base cands x = some (out, b)) :
    b ∉ servers.map Prod.fst ∧ out = servers ++ [(b, x)] ∧
      ∀ k, k ≠ b → out.lookup k = servers.lookup k := by
  unfold start_server at h
  cases hc : choose_base (servers.map Prod.fst) base cands with
  | none => rw [hc] at h; exact absurd h (by simp)
  | some b0 =>
      rw [hc] at h
      simp only [Option.some.injEq, Prod.mk.injEq] at h
      obtain ⟨hout, hb⟩ := h
      subst hb; subst hout
      refine ⟨choose_base_fresh _ _ _ _ hc, rfl, ?_⟩
      intro k hk
      exact lookup_append_single servers _ k x hk

/-- C4 witness: concrete run of the amended theorem. -/
theorem C4_start_server_fresh_key_witness :
    start_server ([] : List (List Char × Nat)) (some ['a']) [] 5 =
        some ([(['a'], 5)], ['a']) ∧
      ['a'] ∉ (([] : List (List Char × Nat)).map Prod.fst) :=
  ⟨rfl, (C4_start_server_fresh_key [] (some ['a']) [] 5 [(['a'], 5)] ['a'] rfl).1⟩

/-! ## Manager-privileged node server

`nodeserver_manager.py`, `NodeServer._recv_out`, `manager` branch
(lines 512–535).  The global `NSMGR` holds the profile number of the
privileged server; `IAmManager` stores `self.profile_number` into it
unconditionally, and `ClearStatistics` / `IsyHasRestarted` are performed
only when `self.profile_number == NSMGR`, otherwise logged as refused. -/

/-- Observable effect of one `manager` message. -/
inductive MgrEffect
  | recorded
  | honored
  | refused
  | unimplemented
deriving DecidableEq, Repr

/-- The `manager` branch of `_recv_out` for one message from a server with
profile number `profile` carrying operation `op`. -/
def manager_step (nsmgr : Option Nat) (profile : Nat) (op : Option String) :
    Option Nat × MgrEffect :=
  if op == some "IAmManager" then (some profile, .recorded)
  else if op == some "ClearStatistics" then
    (if some profile == nsmgr then (nsmgr, .honored) else (nsmgr, .refused))
  else if op == some "IsyHasRestarted" then
    (if some profile == nsmgr then (nsmgr, .honored) else (nsmgr, .refused))
  else (nsmgr, .unimplemented)

/-- Processing a sequence of `manager` messages (across all servers, in
arrival order) against the `NSMGR` global. -/
def manager_run (nsmgr : Option Nat) :
    List (Nat × Option String) → Option Nat × List MgrEffect
  | [] => (nsmgr, [])
  | (p, op) :: rest =>
      let s := manager_step nsmgr p op
      let r := manager_run s.1 rest
      (r.1, s.2 :: r.2)

/-- The profile of the most recent `IAmManager` announcer, defaulting to
the incoming value when no message announces. -/
def last_claim (nsmgr : Option Nat) : List (Nat × Option String) → Option Nat
  | [] => nsmgr
  | (p, op) :: rest =>
      last_claim (if op == some "IAmManager" then some p else nsmgr) rest

theorem manager_step_fst (nsmgr : Option Nat) (p : Nat) (op : Option String) :
    (manager_step nsmgr p op).1 =
      if op == some "IAmManager" then some p else nsmgr := by
  unfold manager_step
  split_ifs <;> simp_all

theorem manager_run_fst (nsmgr : Option Nat) (msgs : List (Nat × Option String)) :
    (manager_run nsmgr msgs).1 = last_claim nsmgr msgs := by
  induction msgs generalizing nsmgr with
  | nil => rfl
  | cons m rest ih =>
      obtain ⟨p, op⟩ := m
      simp only [manager_run, last_claim, ← manager_step_fst nsmgr p op]
      exact ih _

/-- C2 counterexample: server 1 announces `IAmManager` first, then server 2
announces; server 2's subsequent `ClearStatistics` is honored, and the
recorded privileged server is 2, not the first announcer 1. -/
theorem C2_counterexample :
    manager_run none
        [(1, some "IAmManager"), (2, some "IAmManager"),
         (2, some "ClearStatistics")] =
      (some 2, [.recorded, .recorded, .honored]) ∧
    (manager_run none
        [(1, some "IAmManager"), (2, some "IAmManager"),
         (2, some "ClearStatistics")]).1 ≠ some 1 :=
  ⟨by decide, by decide⟩

/-- C2 (amended): the *most recent* server to announce `IAmManager` is
recorded as the stats-privileged one (last wins, not first), and after any
message sequence a `ClearStatistics` or `IsyHasRestarted` request from
profile `p` is honored exactly when `p` is the recorded privileged
profile. -/
theorem C2_manager_privilege (nsmgr : Option Nat)
    (msgs : List (Nat × Option String)) (p : Nat) (op : Option String) :
    (manager_run nsmgr msgs).1 = last_claim nsmgr msgs ∧
      ((op = some "ClearStatistics" ∨ op = some "IsyHasRestarted") →
        ((manager_step (last_claim nsmgr msgs) p op).2 = .honored ↔
          some p = last_claim nsmgr msgs)) := by
  refine ⟨manager_run_fst nsmgr msgs, ?_⟩
  intro hop
  rcases hop with h | h <;> subst h <;>
    · unfold manager_step
      by_cases hm : some p = last_claim nsmgr msgs <;>
        simp [hm]

/-- C2 witness: concrete run of the amended theorem. -/
theorem C2_manager_privilege_witness :
    (manager_run none [(7, some "IAmManager")]).1 =
        last_claim none [(7, some "IAmManager")] ∧
      ((manager_step (last_claim none [(7, some "IAmManager")]) 7
          (some "ClearStatistics")).2 = .honored ↔
        some 7 = last_claim none [(7, some "IAmManager")]) :=
  ⟨(C2_manager_privilege none [(7, some "IAmManager")] 7
      (some "ClearStatistics")).1,
   (C2_manager_privilege none [(7, some "IAmManager")] 7
      (some "ClearStatistics")).2 (Or.inl rfl)⟩

/-! ## Diagnostic statistics (`isy/__init__.py`, `get_stats`)

The global `STATS` dictionary has seven counters.  `get_stats` takes the
stats lock, binds `st = STATS` — an *alias* to the same dictionary, not a
copy — zeroes every field of `STATS` in place when `clear` is set, releases
the lock and returns `st`.  Because `st` aliases the mutated dictionary,
the value the caller observes is the post-clear one.  The model returns the
pair (dictionary returned to the caller, new global value); the aliasing
makes the two components equal. -/

structure Stats where
  ntotal : Nat
  rtotal : Nat
  oktotal : Nat
  ertotal : Nat
  ettotal : Rat
  ethigh : Rat
  etlow : Rat
deriving DecidableEq, Repr

/-- The all-zero statistics record that the clearing branch writes. -/
def STATS0 : Stats := ⟨0, 0, 0, 0, 0, 0, 0⟩

/-- `get_stats(ns_profnum, clear)` acting on the global `STATS` value. -/
def get_stats (stats : Stats) (clear : Bool) : Stats × Stats :=
  let stats2 := if clear then STATS0 else stats
  (stats2, stats2)

/-- C6: `get_stats` with `clear=True` does *not* return the pre-reset
snapshot — because `st = STATS` aliases the dictionary being zeroed, the
caller receives the zeroed record.  Evaluated at a state with five
accumulated requests. -/
theorem C6_get_stats_cleared_snapshot :
    get_stats ⟨5, 1, 4, 1, 10, 3, 1⟩ true = (STATS0, STATS0) ∧
      (get_stats ⟨5, 1, 4, 1, 10, 3, 1⟩ true).1.ntotal ≠ 5 :=
  ⟨rfl, by decide⟩

/-! ## Controller REST client: `request` (`isy/__init__.py`, lines 259–418)

One call to `request` performs up to `max_retries + 1` attempts.  Each
attempt either yields an HTTP response (`requests.get` returned: status
code and body) or raises one of four exceptions.  The network is modelled
by the list of attempt outcomes the environment would produce; the loop
consumes one outcome per iteration.  Elapsed times are the
`time.time() - ts` differences, supplied with each outcome. -/

/-- Outcome of one `requests.get` attempt. -/
inductive Attempt
  | resp (status : Nat) (body : String) (elapsed : Rat)
  | timeout (elapsed : Rat)
  | httpError (elapsed : Rat)
  | urlRequired (elapsed : Rat)
  | connError (err : String) (elapsed : Rat)
deriving DecidableEq, Repr

/-- The dictionary `request` returns. -/
structure ReqResult where
  text : Option String
  status_code : Nat
  seq : Option Int
  elapsed : Rat
  retries : Nat
deriving DecidableEq, Repr

/-- Python `int(s)` on a decimal string with optional sign (`none` where
`int` raises `ValueError`). -/
def py_int (s : List Char) : Option Int :=
  let digits : List Char → Option Nat := fun l =>
    if l ≠ [] ∧ l.all Char.isDigit then
      some (l.foldl (fun n c => n * 10 + (c.toNat - 48)) 0)
    else none
  match s with
  | '-' :: rest => (digits rest).map (fun n => -(n : Int))
  | '+' :: rest => (digits rest).map (fun n => (n : Int))
  | _ => (digits s).map (fun n => (n : Int))

/-- `int(os.environ.get('PG_RETRIES', '3'))`: the retry limit read from the
environment, defaulting to 3. -/
def pg_max_retries (env_pg_retries : Option (List Char)) : Option Int :=
  py_int (env_pg_retries.getD ['3'])

/-- The body of one `try`/`except` block of `request`: the `(text, scode,
elapsed, retry)` assignments the source makes for each outcome.  `text` was
reset to `None` at the top of the iteration; a response stores the body
only when `text_needed`; a 503 response and a connection error set `retry`;
a connection error stores `repr(err)` into `text` (and invalidates the
shared session); timeout, HTTP protocol error and missing-URL map to the
transport status codes 1, 2 and 3. -/
def attempt_step (text_needed : Bool) :
    Attempt → Option String × Nat × Rat × Bool
  | .resp s body e => (if text_needed then some body else none, s, e, s == 503)
  | .timeout e => (none, 1, e, false)
  | .httpError e => (none, 2, e, false)
  | .urlRequired e => (none, 3, e, false)
  | .connError err e => (some err, 4, e, true)

/-- The `while retry:` loop of `request`.  `retries` is the loop counter on
entry to the iteration; it is incremented once per attempt, and the loop
continues only when the attempt set `retry` and the counter has not passed
`max_retries`.  On exit the source runs `retries -= 1` and builds the
result dictionary.  Returns the result (before the `seq` echo is attached)
together with the number of outcomes consumed, or `none` when the supplied
outcome list is exhausted before the loop ends. -/
def request_loop (max_retries : Nat) (text_needed : Bool) (retries : Nat) :
    List Attempt → Option (ReqResult × Nat)
  | [] => none
  | a :: rest =>
      let s := attempt_step text_needed a
      let retries2 := retries + 1
      if s.2.2.2 = true ∧ retries2 ≤ max_retries then
        match request_loop max_retries text_needed retries2 rest with
        | none => none
        | some (r, n) => some (r, n + 1)
      else
        some ({ text := s.1, status_code := s.2.1, seq := none,
                elapsed := s.2.2.1, retries := retries2 - 1 }, 1)

/-- `request(ns_profnum, url, timeout, seq, text_needed, noretry)`: run the
retry loop from zero and echo `seq` into the result. -/
def request (max_retries : Nat) (seq : Option Int) (text_needed : Bool)
    (attempts : List Attempt) : Option (ReqResult × Nat) :=
  match request_loop max_retries text_needed 0 attempts with
  | none => none
  | some (r, n) => some ({ r with seq := seq }, n)

/-- An attempt outcome the source retries on: HTTP 503 or a connection
error.  Timeouts, protocol errors and invalid URLs do not retry. -/
def retryable : Attempt → Bool
  | .resp s _ _ => s == 503
  | .connError _ _ => true
  | _ => false

/-- Number of retryable failures in a list of outcomes. -/
def count_retryable (l : List Attempt) : Nat := (l.filter retryable).length

/-- The `text` field the source produces for a given final attempt. -/
def attempt_text (text_needed : Bool) : Attempt → Option String
  | .resp _ body _ => if text_needed then some body else none
  | .connError err _ => some err
  | _ => none

theorem attempt_step_retry (tn : Bool) (a : Attempt) :
    (attempt_step tn a).2.2.2 = retryable a := by
  cases a <;> rfl

theorem attempt_step_text (tn : Bool) (a : Attempt) :
    (attempt_step tn a).1 = attempt_text tn a := by
  cases a <;> rfl

theorem request_loop_spec (max_retries : Nat) (tn : Bool) (l : List Attempt) :
    ∀ (k : Nat) (r : ReqResult) (n : Nat), k ≤ max_retries →
      request_loop max_retries tn k l = some (r, n) →
      1 ≤ n ∧ n ≤ l.length ∧ r.retries = k + n - 1 ∧
        r.retries = min max_retries (k + count_retryable (l.take n)) ∧
        (∀ a ∈ l.take (n - 1), retryable a = true) ∧
        (∀ a, l[n - 1]? = some a → r.text = attempt_text tn a) := by
  induction l with
  | nil => intro k r n _ h; simp [request_loop] at h
  | cons a rest ih =>
      intro k r n hk h
      by_cases hcont : retryable a = true ∧ k + 1 ≤ max_retries
      · have hmatch : request_loop max_retries tn k (a :: rest) =
            match request_loop max_retries tn (k + 1) rest with
            | none => none
            | some p => some (p.1, p.2 + 1) := by
          simp only [request_loop, attempt_step_retry]
          rw [if_pos hcont]
          cases request_loop max_retries tn (k + 1) rest with
          | none => rfl
          | some p => obtain ⟨r1, n1⟩ := p; rfl
        rw [hmatch] at h
        cases hrec : request_loop max_retries tn (k + 1) rest with
        | none => rw [hrec] at h; exact absurd h (by simp)
        | some p =>
            obtain ⟨r0, n0⟩ := p
            rw [hrec] at h
            simp only [Option.some.injEq, Prod.mk.injEq] at h
            obtain ⟨hr, hn⟩ := h
            obtain ⟨h1, h2, h3, h4, h5, h6⟩ := ih (k + 1) r0 n0 hcont.2 hrec
            obtain ⟨m, rfl⟩ : ∃ m, n0 = m + 1 := ⟨n0 - 1, by omega⟩
            subst hn
            subst hr
            have htake : (a :: rest).take (m + 1 + 1) = a :: rest.take (m + 1) :=
              rfl
            refine ⟨by omega, by simp only [List.length_cons]; omega,
              by omega, ?_, ?_, ?_⟩
            · have hcr : count_retryable (a :: rest.take (m + 1)) =
                  count_retryable (rest.take (m + 1)) + 1 := by
                simp [count_retryable, List.filter, hcont.1]
              rw [htake, hcr]
              omega
            · intro b hb
              have hb2 : b ∈ a :: rest.take m := hb
              rcases List.mem_cons.mp hb2 with hb3 | hb3
              · subst hb3; exact hcont.1
              · exact h5 b hb3
            · intro b hb
              apply h6 b
              have he : (m + 1 + 1 - 1) = m + 1 := rfl
              rw [he] at hb
              simpa using hb
      · have hstop : request_loop max_retries tn k (a :: rest) =
            some ({ text := (attempt_step tn a).1,
                    status_code := (attempt_step tn a).2.1,
                    seq := none,
                    elapsed := (attempt_step tn a).2.2.1,
                    retries := k + 1 - 1 }, 1) := by
          simp only [request_loop, attempt_step_retry]
          rw [if_neg hcont]
        rw [hstop] at h
        simp only [Option.some.injEq, Prod.mk.injEq] at h
        obtain ⟨hr, hn⟩ := h
        subst hn
        have hretry : r.retries = k := by
          rw [← hr]; show k + 1 - 1 = k; omega
        have htext : r.text = attempt_text tn a := by
          rw [← hr]; exact attempt_step_text tn a
        refine ⟨Nat.le_refl 1, by simp, by omega, ?_, by simp, ?_⟩
        · rw [hretry]
          by_cases hra : retryable a = true
          · have hklim : ¬ k + 1 ≤ max_retries := fun hc => hcont ⟨hra, hc⟩
            have hcr : count_retryable ((a :: rest).take 1) = 1 := by
              simp [count_retryable, List.filter, hra]
            rw [hcr]; omega
          · have hcr : count_retryable ((a :: rest).take 1) = 0 := by
              simp only [Bool.not_eq_true] at hra
              simp [count_retryable, List.filter, hra]
            rw [hcr]; omega
        · intro b hb
          simp only [Nat.sub_self, List.getElem?_cons_zero,
            Option.some.injEq] at hb
          subst hb; exact htext

/-- C7: for every completed call, the reported `retries` field equals
`min max_retries (number of retryable failures among the consumed
attempts)`; only 503 responses and connection errors are retryable, so
every consumed attempt before the last is such a failure (a timeout,
protocol error or invalid URL ends the call at once); the reported value is
the final value of the once-per-iteration incremented counter (`n - 1`
after `n` attempts, so it never decreases as the call proceeds); and the
retry limit defaults to 3 when `PG_RETRIES` is absent. -/
theorem C7_request_retries (max_retries : Nat) (seq : Option Int) (tn : Bool)
    (attempts : List Attempt) (r : ReqResult) (n : Nat)
    (h : request max_retries seq tn attempts = some (r, n)) :
    r.retries = min max_retries (count_retryable (attempts.take n)) ∧
      r.retries = n - 1 ∧ 1 ≤ n ∧ n ≤ attempts.length ∧
      (∀ a ∈ attempts.take (n - 1), retryable a = true) ∧
      pg_max_retries none = some 3 := by
  unfold request at h
  cases hloop : request_loop max_retries tn 0 attempts with
  | none => rw [hloop] at h; exact absurd h (by simp)
  | some p =>
      obtain ⟨r0, n0⟩ := p
      rw [hloop] at h
      simp only [Option.some.injEq, Prod.mk.injEq] at h
      obtain ⟨hr, hn⟩ := h
      subst hn
      obtain ⟨h1, h2, h3, h4, h5, _⟩ :=
        request_loop_spec max_retries tn attempts 0 r0 n0
          (Nat.zero_le _) hloop
      have hretr : r.retries = r0.retries := by rw [← hr]
      refine ⟨?_, by rw [hretr]; omega, h1, h2, h5, by decide⟩
      rw [hretr, h4, Nat.zero_add]

/-- C7 witness: a 503 followed by a 200 — one retry is reported. -/
theorem C7_request_retries_witness :
    request 3 (some 1001) false
        [.resp 503 "" 1, .resp 200 "ok" 2] =
      some ({ text := none, status_code := 200, seq := some 1001,
              elapsed := 2, retries := 1 }, 2) ∧
      ({ text := none, status_code := 200, seq := some 1001,
         elapsed := 2, retries := 1 } : ReqResult).retries =
        min 3 (count_retryable
          (([.resp 503 "" 1, .resp 200 "ok" 2] : List Attempt).take 2)) :=
  ⟨by decide,
   (C7_request_retries 3 (some 1001) false
      [.resp 503 "" 1, .resp 200 "ok" 2] _ 2 (by decide)).1⟩

/-- C8 counterexample: with `text_needed` false, a call whose last attempt
raises `ConnectionError` returns `text = repr(err)`, not `None`. -/
theorem C8_counterexample :
    request 0 none false [.connError "ConnectionError(refused)" 1] =
        some ({ text := some "ConnectionError(refused)", status_code := 4,
                seq := none, elapsed := 1, retries := 0 }, 1) ∧
      ({ text := some "ConnectionError(refused)", status_code := 4,
         seq := none, elapsed := 1, retries := 0 } : ReqResult).text ≠
        none :=
  ⟨by decide, by decide⟩

/-- C8 (amended): the `text` field of the result is determined by the final
attempt: the response body when the caller requested it (`text_needed`) and
the attempt returned a response; `repr(err)` when the final attempt was a
connection error; and `None` in every other case (no body requested, or a
timeout, protocol error or invalid URL). -/
theorem C8_request_text (max_retries : Nat) (seq : Option Int) (tn : Bool)
    (attempts : List Attempt) (r : ReqResult) (n : Nat) (a : Attempt)
    (h : request max_retries seq tn attempts = some (r, n))
    (ha : attempts[n - 1]? = some a) :
    r.text = attempt_text tn a := by
  unfold request at h
  cases hloop : request_loop max_retries tn 0 attempts with
  | none => rw [hloop] at h; exact absurd h (by simp)
  | some p =>
      obtain ⟨r0, n0⟩ := p
      rw [hloop] at h
      simp only [Option.some.injEq, Prod.mk.injEq] at h
      obtain ⟨hr, hn⟩ := h
      subst hn
      have htext : r.text = r0.text := by rw [← hr]
      rw [htext]
      exact (request_loop_spec max_retries tn attempts 0 r0 n0
        (Nat.zero_le _) hloop).2.2.2.2.2 a ha

/-- C8 witness: body requested and delivered on a 200. -/
theorem C8_request_text_witness :
    request 3 none true [.resp 200 "body" 1] =
        some ({ text := some "body", status_code := 200, seq := none,
                elapsed := 1, retries := 0 }, 1) ∧
      ({ text := some "body", status_code := 200, seq := none,
         elapsed := 1, retries := 0 } : ReqResult).text =
        attempt_text true (.resp 200 "body" 1) :=
  ⟨by decide,
   C8_request_text 3 none true [.resp 200 "body" 1] _ 1
     (.resp 200 "body" 1) (by decide) (by decide)⟩

/-! ## Incoming HTTP listener (`isy/incoming.py`)

`GenericNodeServerHandler.get` looks the URL's `<base>` segment up in
`PGLOT.nodeservers`; a `KeyError` produces `send_not_found()` (status 404
with body `404 - HTTP_NOT_FOUND`) and leaves `self.node_server = None`,
otherwise the node server is stashed and `send_ok()` replies 200 with body
`200 - HTTP_OK` and finishes the response.  Tornado invokes `on_finish`
only after the response has been sent; `InstallHandler.on_finish` forwards
`send_install(profile_number)` to the stashed server when one was found.
A request is modelled as the event trace it produces, in order: the events
of `get` (the reply) followed by the events of `on_finish` (the forward). -/

/-- Observable event of handling one controller callback. -/
inductive HEvent (α : Type)
  | reply (status : Nat) (body : String)
  | forward (server : α) (profile_number : Nat)
deriving DecidableEq, Repr

/-- `GenericNodeServerHandler.get`: reply, and stash the resolved server. -/
def handler_get (registry : List (List Char × α)) (base : List Char) :
    List (HEvent α) × Option α :=
  match registry.lookup base with
  | none => ([.reply 404 "404 - HTTP_NOT_FOUND"], none)
  | some ns => ([.reply 200 "200 - HTTP_OK"], some ns)

/-- `InstallHandler.on_finish`: forward `install` iff a server was found. -/
def install_on_finish (node_server : Option α) (profnum : Nat) :
    List (HEvent α) :=
  match node_server with
  | none => []
  | some ns => [.forward ns profnum]

/-- One `install/<profnum>` callback processed end to end: the reply events
of `get`, then the forward events of `on_finish`. -/
def process_install (registry : List (List Char × α)) (base : List Char)
    (profnum : Nat) : List (HEvent α) :=
  let g := handler_get registry base
  g.1 ++ install_on_finish g.2 profnum

/-- C5: an unknown base yields exactly a 404 reply and no forward to any
server; a known base yields a 200 reply with a short body followed — after
the reply — by the forward to the resolved server. -/
theorem C5_reply_first_forward_after (registry : List (List Char × α))
    (base : List Char) (profnum : Nat) :
    (registry.lookup base = none →
      process_install registry base profnum =
        [.reply 404 "404 - HTTP_NOT_FOUND"]) ∧
    (∀ ns, registry.lookup base = some ns →
      process_install registry base profnum =
        [.reply 200 "200 - HTTP_OK", .forward ns profnum]) := by
  constructor
  · intro h
    simp [process_install, handler_get, h, install_on_finish]
  · intro ns h
    simp [process_install, handler_get, h, install_on_finish]

/-- C5 witness: concrete registry, one known and one unknown base. -/
theorem C5_reply_first_forward_after_witness :
    process_install [(['a'], (7 : Nat))] ['a'] 1 =
        [.reply 200 "200 - HTTP_OK", .forward 7 1] ∧
      process_install [(['a'], (7 : Nat))] ['b'] 1 =
        [.reply 404 "404 - HTTP_NOT_FOUND"] :=
  ⟨(C5_reply_first_forward_after [(['a'], 7)] ['a'] 1).2 7 (by decide),
   (C5_reply_first_forward_after [(['a'], 7)] ['b'] 1).1 (by decide)⟩

/-! ## Result delivery in `NodeServer._request_handler`

`nodeserver_manager.py`, lines 449–481.  The request worker takes one
message off `self._rqq`, reads its command code and arguments, pulls
`seq = arguments.get('seq', None)`, looks the command up in
`self._handlers` — the REST-call codes `status`, `command`, `add`,
`change`, `remove`, `restcall`, `request` — and calls the handler, which
performs `request(...)` of `isy/__init__.py` and returns its result
dictionary (which echoes `seq`).  Then `if seq and result:` the result is
wrapped as `self._mk_cmd('result', **result)`.  Note the Python truthiness
test on `seq`: a present but zero `seq` sends nothing.

`_mk_cmd` (lines 582–591) publishes over MQTT when `self.node_connected`,
else queues on `self._inq` when that queue still exists, else drops the
message (the child is no longer registered). -/

/-- The slice of `NodeServer` state `_mk_cmd` consults. -/
structure NSState where
  node_connected : Bool
  inq : Bool
deriving DecidableEq, Repr

/-- An outbound message produced by the request worker. -/
inductive OutMsg
  | result (r : ReqResult)
deriving DecidableEq, Repr

/-- A delivery performed by `_mk_cmd`. -/
inductive Delivery
  | mqtt (m : OutMsg)
  | stdin (m : OutMsg)
deriving DecidableEq, Repr

/-- `NodeServer._mk_cmd`: publish over MQTT if connected, else queue on
stdin if the queue exists, else drop. -/
def mk_cmd (st : NSState) (m : OutMsg) : List Delivery :=
  if st.node_connected then [.mqtt m]
  else if st.inq then [.stdin m]
  else []

/-- The command codes registered in `self._handlers`. -/
def handler_commands : List String :=
  ["status", "command", "add", "change", "remove", "restcall", "request"]

/-- Python truthiness of the `seq` argument (`if seq and result:`). -/
def seq_truthy : Option Int → Bool
  | none => false
  | some n => n != 0

/-- `NodeServer._request_handler` processing one message whose command code
is `command` and whose arguments carry `seq`; the REST call the handler
performs is `request` with the supplied attempt outcomes.  Returns the
deliveries made, or `none` when the attempt-outcome list is starved.  The
result dictionary `request` returns is never empty, so `if seq and result:`
reduces to the truthiness of `seq`. -/
def request_handler (st : NSState) (command : String) (seq : Option Int)
    (max_retries : Nat) (text_needed : Bool) (attempts : List Attempt) :
    Option (List Delivery) :=
  if command ∈ handler_commands then
    match request max_retries seq text_needed attempts with
    | none => none
    | some (result, _) =>
        if seq_truthy seq then some (mk_cmd st (.result result))
        else some []
  else some []

/-- Count of `result` deliveries carrying a given `seq`. -/
def result_count (seqv : Option Int) (l : List Delivery) : Nat :=
  (l.filter fun d =>
    match d with
    | .mqtt (.result r) => r.seq == seqv
    | .stdin (.result r) => r.seq == seqv).length

/-- C1 counterexample: a `status` message that carries `seq = 0` from a
registered child (stdin queue present): the truthiness test `if seq and
result:` fails on the zero value and no `result` is delivered at all. -/
theorem C1_counterexample :
    request_handler ⟨false, true⟩ "status" (some 0) 3 false
        [.resp 200 "" 1] = some [] ∧
      "status" ∈ handler_commands ∧
      (⟨false, true⟩ : NSState).inq = true ∧
      result_count (some 0) [] = 0 := by
  refine ⟨by decide, by decide, rfl, rfl⟩

theorem request_seq_echo (max_retries : Nat) (seq : Option Int) (tn : Bool)
    (attempts : List Attempt) (r : ReqResult) (n : Nat)
    (h : request max_retries seq tn attempts = some (r, n)) : r.seq = seq := by
  unfold request at h
  cases hloop : request_loop max_retries tn 0 attempts with
  | none => rw [hloop] at h; exact absurd h (by simp)
  | some p =>
      rw [hloop] at h
      simp only [Option.some.injEq, Prod.mk.injEq] at h
      rw [← h.1]

/-- C1 (amended): for a message whose command code is a REST-call code and
which carries a *non-zero* `seq`, exactly one `result` delivery carrying
that same `seq` is made to the child — over MQTT when connected, else on
the stdin queue — or the child is no longer registered (not connected and
its stdin queue gone), in which case nothing is delivered.  (A present but
zero `seq` fails Python's truthiness test and gets no `result`; the spec's
sequence numbers start at 1000, but the claim as stated quantifies over
every message carrying a `seq`.) -/
theorem C1_result_delivery (st : NSState) (command : String) (v : Int)
    (max_retries : Nat) (tn : Bool) (attempts : List Attempt)
    (r : ReqResult) (n : Nat)
    (hcmd : command ∈ handler_commands) (hv : v ≠ 0)
    (hreq : request max_retries (some v) tn attempts = some (r, n)) :
    request_handler st command (some v) max_retries tn attempts =
        some (mk_cmd st (.result r)) ∧
      r.seq = some v ∧
      ((st.node_connected = true ∨ st.inq = true) →
        result_count (some v) (mk_cmd st (.result r)) = 1) ∧
      (st.node_connected = false ∧ st.inq = false →
        mk_cmd st (.result r) = []) := by
  have hseq : r.seq = some v :=
    request_seq_echo max_retries (some v) tn attempts r n hreq
  have htru : seq_truthy (some v) = true := by
    simp [seq_truthy, bne_iff_ne, hv]
  refine ⟨?_, hseq, ?_, ?_⟩
  · unfold request_handler
    rw [if_pos hcmd, hreq, htru]
    simp
  · intro hreg
    rcases hreg with hc | hq
    · simp [mk_cmd, hc, result_count, hseq]
    · by_cases hc : st.node_connected
      · simp [mk_cmd, hc, result_count, hseq]
      · simp [mk_cmd, hc, hq, result_count, hseq]
  · intro ⟨hc, hq⟩
    simp [mk_cmd, hc, hq]

/-- C1 witness: a `status` with `seq = 1001` from a stdio child. -/
theorem C1_result_delivery_witness :
    request_handler ⟨false, true⟩ "status" (some 1001) 3 false
        [.resp 200 "" 1] =
      some (mk_cmd ⟨false, true⟩ (.result
        { text := none, status_code := 200, seq := some 1001,
          elapsed := 1, retries := 0 })) ∧
      result_count (some 1001) (mk_cmd ⟨false, true⟩ (.result
        { text := none, status_code := 200, seq := some 1001,
          elapsed := 1, retries := 0 })) = 1 :=
  ⟨(C1_result_delivery ⟨false, true⟩ "status" 1001 3 false [.resp 200 "" 1]
      { text := none, status_code := 200, seq := some 1001,
        elapsed := 1, retries := 0 } 1
      (by decide) (by decide) (by decide)).1,
   (C1_result_delivery ⟨false, true⟩ "status" 1001 3 false [.resp 200 "" 1]
      { text := none, status_code := 200, seq := some 1001,
        elapsed := 1, retries := 0 } 1
      (by decide) (by decide) (by decide)).2.2.1 (Or.inr rfl)⟩

/-! ## Config persistence (`config_manager.py`)

`ConfigManager.encode` deep-copies the tree and replaces the two password
leaves `elements.http.password` and `elements.isy.password` with their
`base64.b64encode`; `decode` applies `base64.b64decode` to the same two
leaves in sequence (a `TypeError` — what Python 2's `b64decode` raises on
invalid input — is swallowed, leaving the remaining leaves as they were);
`write` serializes `self.encode()` to the configuration file.  Strings are
byte strings here (Python 2), modelled as `List Nat` of byte values; the
`base64` primitives are the standard RFC 4648 encoding the library
implements. -/

/-- The base64 alphabet as ASCII codes: `A–Z`, `a–z`, `0–9`, `+`, `/`. -/
def b64_alphabet : List Nat :=
  [65, 66, 67, 68, 69, 70, 71, 72, 73, 74, 75, 76, 77, 78, 79, 80, 81, 82,
   83, 84, 85, 86, 87, 88, 89, 90,
   97, 98, 99, 100, 101, 102, 103, 104, 105, 106, 107, 108, 109, 110, 111,
   112, 113, 114, 115, 116, 117, 118, 119, 120, 121, 122,
   48, 49, 50, 51, 52, 53, 54, 55, 56, 57, 43, 47]

/-- The alphabet character (ASCII code) for a 6-bit value. -/
def b64_char (i : Nat) : Nat := b64_alphabet.getD i 0

/-- The 6-bit value of an alphabet character; `none` for non-alphabet
characters (in particular the padding `=`, ASCII 61). -/
def b64_val (c : Nat) : Option Nat := b64_alphabet.indexOf? c

/-- `base64.b64encode` on a byte string: 3-byte groups become 4 alphabet
characters; a trailing group of 1 or 2 bytes is padded with `=`. -/
def b64encode : List Nat → List Nat
  | [] => []
  | [a] => [b64_char (a / 4), b64_char (a % 4 * 16), 61, 61]
  | [a, b] =>
      [b64_char (a / 4), b64_char (a % 4 * 16 + b / 16),
       b64_char (b % 16 * 4), 61]
  | a :: b :: c :: rest =>
      b64_char (a / 4) :: b64_char (a % 4 * 16 + b / 16) ::
        b64_char (b % 16 * 4 + c / 64) :: b64_char (c % 64) :: b64encode rest

/-- `base64.b64decode` on an encoded string: 4-character groups back to
bytes, honoring terminal `=` padding (ASCII 61); `none` where the library
raises. -/
def b64decode : List Nat → Option (List Nat)
  | [] => some []
  | c1 :: c2 :: c3 :: c4 :: rest =>
      if c3 = 61 ∧ c4 = 61 ∧ rest = [] then
        match b64_val c1, b64_val c2 with
        | some v1, some v2 => some [v1 * 4 + v2 / 16]
        | _, _ => none
      else if c4 = 61 ∧ rest = [] then
        match b64_val c1, b64_val c2, b64_val c3 with
        | some v1, some v2, some v3 =>
            some [v1 * 4 + v2 / 16, v2 % 16 * 16 + v3 / 4]
        | _, _, _ => none
      else
        match b64_val c1, b64_val c2, b64_val c3, b64_val c4,
            b64decode rest with
        | some v1, some v2, some v3, some v4, some ds =>
            some ((v1 * 4 + v2 / 16) :: (v2 % 16 * 16 + v3 / 4) ::
              (v3 % 4 * 64 + v4) :: ds)
        | _, _, _, _, _ => none
  | _ => none

theorem b64_val_char : ∀ i < 64, b64_val (b64_char i) = some i := by decide

theorem b64_char_ne_pad : ∀ i < 64, b64_char i ≠ 61 := by decide

theorem b64encode_length (l : List Nat) :
    (b64encode l).length = 4 * ((l.length + 2) / 3) := by
  match l with
  | [] => simp [b64encode]
  | [_] => simp [b64encode]
  | [_, _] => simp [b64encode]
  | a :: b :: c :: rest =>
      have ih := b64encode_length rest
      simp only [b64encode, List.length_cons, ih]
      omega

theorem mul16_add_div (t u : Nat) (hu : u < 16) : (t * 16 + u) / 16 = t := by
  omega

theorem mul16_add_mod (t u : Nat) (hu : u < 16) : (t * 16 + u) % 16 = u := by
  omega

theorem mul4_add_div (t u : Nat) (hu : u < 4) : (t * 4 + u) / 4 = t := by
  omega

theorem mul4_add_mod (t u : Nat) (hu : u < 4) : (t * 4 + u) % 4 = u := by
  omega

theorem b64decode_pad2 (c1 c2 : Nat) :
    b64decode [c1, c2, 61, 61] =
      match b64_val c1, b64_val c2 with
      | some v1, some v2 => some [v1 * 4 + v2 / 16]
      | _, _ => none := rfl

theorem b64decode_pad1 (c1 c2 c3 : Nat) (hc3 : c3 ≠ 61) :
    b64decode [c1, c2, c3, 61] =
      match b64_val c1, b64_val c2, b64_val c3 with
      | some v1, some v2, some v3 =>
          some [v1 * 4 + v2 / 16, v2 % 16 * 16 + v3 / 4]
      | _, _, _ => none := by
  simp [b64decode, hc3]

theorem b64decode_full (c1 c2 c3 c4 : Nat) (rest : List Nat)
    (hc3 : c3 ≠ 61) (hc4 : c4 ≠ 61) :
    b64decode (c1 :: c2 :: c3 :: c4 :: rest) =
      match b64_val c1, b64_val c2, b64_val c3, b64_val c4,
          b64decode rest with
      | some v1, some v2, some v3, some v4, some ds =>
          some ((v1 * 4 + v2 / 16) :: (v2 % 16 * 16 + v3 / 4) ::
            (v3 % 4 * 64 + v4) :: ds)
      | _, _, _, _, _ => none := by
  simp [b64decode, hc3, hc4]

theorem b64_roundtrip :
    ∀ l : List Nat, (∀ x ∈ l, x < 256) → b64decode (b64encode l) = some l
  | [], _ => by simp [b64encode, b64decode]
  | [a], h => by
      have ha : a < 256 := h a (by simp)
      have h1 : b64_val (b64_char (a / 4)) = some (a / 4) :=
        b64_val_char (a / 4) (by omega)
      have h2 : b64_val (b64_char (a % 4 * 16)) = some (a % 4 * 16) :=
        b64_val_char (a % 4 * 16) (by omega)
      have e1 : a % 4 * 16 / 16 = a % 4 := by
        have hinst := mul16_add_div (a % 4) 0 (by norm_num)
        rw [Nat.add_zero] at hinst
        exact hinst
      simp only [b64encode]
      rw [b64decode_pad2, h1, h2]
      simp only [Option.some.injEq, List.cons.injEq, and_true, e1]
      omega
  | [a, b], h => by
      have ha : a < 256 := h a (by simp)
      have hb : b < 256 := h b (by simp)
      have h1 : b64_val (b64_char (a / 4)) = some (a / 4) :=
        b64_val_char (a / 4) (by omega)
      have h2 : b64_val (b64_char (a % 4 * 16 + b / 16)) =
          some (a % 4 * 16 + b / 16) :=
        b64_val_char (a % 4 * 16 + b / 16) (by omega)
      have h3 : b64_val (b64_char (b % 16 * 4)) = some (b % 16 * 4) :=
        b64_val_char (b % 16 * 4) (by omega)
      have e1 : (a % 4 * 16 + b / 16) / 16 = a % 4 :=
        mul16_add_div (a % 4) (b / 16) (by omega)
      have e2 : (a % 4 * 16 + b / 16) % 16 = b / 16 :=
        mul16_add_mod (a % 4) (b / 16) (by omega)
      have e3 : b % 16 * 4 / 4 = b % 16 := by
        have hinst := mul4_add_div (b % 16) 0 (by norm_num)
        rw [Nat.add_zero] at hinst
        exact hinst
      simp only [b64encode]
      rw [b64decode_pad1 _ _ _ (b64_char_ne_pad (b % 16 * 4) (by omega)),
        h1, h2, h3]
      simp only [Option.some.injEq, List.cons.injEq, and_true, e1, e2, e3]
      omega
  | a :: b :: c :: rest, h => by
      have ha : a < 256 := h a (by simp)
      have hb : b < 256 := h b (by simp)
      have hc : c < 256 := h c (by simp)
      have ih := b64_roundtrip rest (fun x hx => h x (by simp [hx]))
      have h1 : b64_val (b64_char (a / 4)) = some (a / 4) :=
        b64_val_char (a / 4) (by omega)
      have h2 : b64_val (b64_char (a % 4 * 16 + b / 16)) =
          some (a % 4 * 16 + b / 16) :=
        b64_val_char (a % 4 * 16 + b / 16) (by omega)
      have h3 : b64_val (b64_char (b % 16 * 4 + c / 64)) =
          some (b % 16 * 4 + c / 64) :=
        b64_val_char (b % 16 * 4 + c / 64) (by omega)
      have h4 : b64_val (b64_char (c % 64)) = some (c % 64) :=
        b64_val_char (c % 64) (by omega)
      have e1 : (a % 4 * 16 + b / 16) / 16 = a % 4 :=
        mul16_add_div (a % 4) (b / 16) (by omega)
      have e2 : (a % 4 * 16 + b / 16) % 16 = b / 16 :=
        mul16_add_mod (a % 4) (b / 16) (by omega)
      have e3 : (b % 16 * 4 + c / 64) / 4 = b % 16 :=
        mul4_add_div (b % 16) (c / 64) (by omega)
      have e4 : (b % 16 * 4 + c / 64) % 4 = c / 64 :=
        mul4_add_mod (b % 16) (c / 64) (by omega)
      simp only [b64encode]
      rw [b64decode_full _ _ _ _ _
          (b64_char_ne_pad (b % 16 * 4 + c / 64) (by omega))
          (b64_char_ne_pad (c % 64) (by omega)),
        h1, h2, h3, h4, ih]
      simp only [Option.some.injEq, List.cons.injEq, and_true, e1, e2, e3, e4]
      refine ⟨by omega, by omega, by omega⟩

/-- The configuration tree: the two obfuscated leaves, and everything else
opaque (Polyglot stores but does not interpret it). -/
structure Config (α : Type) where
  http_password : List Nat
  isy_password : List Nat
  rest : α
deriving DecidableEq, Repr

/-- `ConfigManager.encode`: a copy with both password leaves encoded. -/
def encode (cfg : Config α) : Config α :=
  { http_password := b64encode cfg.http_password,
    isy_password := b64encode cfg.isy_password,
    rest := cfg.rest }

/-- `ConfigManager.decode`: decode the two leaves in sequence; a failure
(`TypeError`) leaves that leaf and the following ones untouched. -/
def decode (cfg : Config α) : Config α :=
  match b64decode cfg.http_password with
  | none => cfg
  | some hp =>
      match b64decode cfg.isy_password with
      | none => { cfg with http_password := hp }
      | some ip => { cfg with http_password := hp, isy_password := ip }

/-- `ConfigManager.write`: the JSON tree serialized to the configuration
file is `self.encode()` — the copy with encoded password leaves. -/
def write_file (cfg : Config α) : Config α := encode cfg

theorem b64encode_ne_self (l : List Nat) (hne : l ≠ []) :
    b64encode l ≠ l := by
  intro heq
  have hlen := b64encode_length l
  rw [heq] at hlen
  have hpos : 0 < l.length := List.length_pos.mpr hne
  omega

/-- C9: for a configuration whose password leaves are byte strings,
`decode (encode cfg)` restores the tree bit-for-bit; `encode` leaves both
password leaves base64-encoded; and the tree `write` puts on disk is the
encoded copy, whose password leaves differ from the cleartext whenever the
password is non-empty. -/
theorem C9_config_roundtrip (cfg : Config α)
    (h1 : ∀ x ∈ cfg.http_password, x < 256)
    (h2 : ∀ x ∈ cfg.isy_password, x < 256) :
    decode (encode cfg) = cfg ∧
      (encode cfg).http_password = b64encode cfg.http_password ∧
      (encode cfg).isy_password = b64encode cfg.isy_password ∧
      write_file cfg = encode cfg ∧
      (cfg.http_password ≠ [] →
        (write_file cfg).http_password ≠ cfg.http_password) ∧
      (cfg.isy_password ≠ [] →
        (write_file cfg).isy_password ≠ cfg.isy_password) := by
  refine ⟨?_, rfl, rfl, rfl, ?_, ?_⟩
  · have hhp : b64decode (encode cfg).http_password = some cfg.http_password :=
      b64_roundtrip cfg.http_password h1
    have hip : b64decode (encode cfg).isy_password = some cfg.isy_password :=
      b64_roundtrip cfg.isy_password h2
    unfold decode
    rw [hhp, hip]
    rfl
  · intro hne
    exact b64encode_ne_self cfg.http_password hne
  · intro hne
    exact b64encode_ne_self cfg.isy_password hne

/-- C9 witness: passwords `s3` and `c` over an opaque remainder. -/
theorem C9_config_roundtrip_witness :
    decode (encode (⟨[115, 51], [99], 0⟩ : Config Nat)) = ⟨[115, 51], [99], 0⟩ ∧
      (write_file (⟨[115, 51], [99], 0⟩ : Config Nat)).http_password ≠
        [115, 51] :=
  ⟨(C9_config_roundtrip ⟨[115, 51], [99], 0⟩ (by decide) (by decide)).1,
   (C9_config_roundtrip ⟨[115, 51], [99], 0⟩ (by decide) (by decide)).2.2.2.2.1
     (by decide)⟩

/-! ## Line decode in `NodeServer._recv_out` (`nodeserver_manager.py` 483–567)

The stdout reader delivers one line at a time to `_recv_out`, whose first
real statement is `message = json.loads(line)` — with *no* `try`/`except`
around it: a line that is not well-formed JSON raises `ValueError` out of
`_recv_out` into the reader thread, before any log-at-error, any dispatch
or any state change.  The subsequent `list(message.keys())[0]` likewise
raises when the message is not a non-empty object.

JSON values are modelled by `JVal` and `json.loads` by a recursive-descent
parser over the line's characters (fuelled by the line length; string
escapes, floats and exponents are not needed by the messages modelled
here).  `_recv_out` itself becomes `recv_out`, returning `Except`: an
`error` is an exception propagating out of the function. -/

/-- A JSON value. -/
inductive JVal
  | null
  | bool (b : Bool)
  | num (n : Int)
  | str (s : List Char)
  | arr (xs : List JVal)
  | obj (fields : List (List Char × JVal))
deriving Repr

/-- Skip JSON whitespace. -/
def json_ws (s : List Char) : List Char :=
  s.dropWhile (fun c => c == ' ' || c == '\t' || c == '\n' || c == '\r')

/-- Parse a string body up to the closing quote (escapes unsupported). -/
def parse_string_body : List Char → Option (List Char × List Char)
  | [] => none
  | c :: rest =>
      if c = '"' then some ([], rest)
      else if c = '\\' then none
      else
        match parse_string_body rest with
        | some (cs, r) => some (c :: cs, r)
        | none => none

/-- Decimal digits to a number. -/
def digits_to_nat (l : List Char) : Nat :=
  l.foldl (fun n c => n * 10 + (c.toNat - 48)) 0

/-- Parse a JSON integer (optional minus sign). -/
def parse_number (s : List Char) : Option (Int × List Char) :=
  match s with
  | '-' :: rest =>
      let d := rest.takeWhile Char.isDigit
      if d = [] then none
      else some (-(digits_to_nat d : Int), rest.dropWhile Char.isDigit)
  | _ =>
      let d := s.takeWhile Char.isDigit
      if d = [] then none
      else some ((digits_to_nat d : Int), s.dropWhile Char.isDigit)

mutual

/-- Parse one JSON value. -/
def parse_value : Nat → List Char → Option (JVal × List Char)
  | 0, _ => none
  | fuel + 1, s =>
      match json_ws s with
      | 'n' :: 'u' :: 'l' :: 'l' :: rest => some (.null, rest)
      | 't' :: 'r' :: 'u' :: 'e' :: rest => some (.bool true, rest)
      | 'f' :: 'a' :: 'l' :: 's' :: 'e' :: rest => some (.bool false, rest)
      | '"' :: rest =>
          match parse_string_body rest with
          | some (cs, r) => some (.str cs, r)
          | none => none
      | '[' :: rest =>
          match json_ws rest with
          | ']' :: r => some (.arr [], r)
          | r2 =>
              match parse_elements fuel r2 with
              | some (xs, r) => some (.arr xs, r)
              | none => none
      | '\x7b' :: rest =>
          match json_ws rest with
          | '\x7d' :: r => some (.obj [], r)
          | r2 =>
              match parse_members fuel r2 with
              | some (fs, r) => some (.obj fs, r)
              | none => none
      | s2 =>
          match parse_number s2 with
          | some (n, r) => some (.num n, r)
          | none => none

/-- Parse the comma-separated elements of a non-empty array. -/
def parse_elements : Nat → List Char → Option (List JVal × List Char)
  | 0, _ => none
  | fuel + 1, s =>
      match parse_value fuel s with
      | none => none
      | some (v, r) =>
          match json_ws r with
          | ',' :: r2 =>
              match parse_elements fuel r2 with
              | some (vs, r3) => some (v :: vs, r3)
              | none => none
          | ']' :: r2 => some ([v], r2)
          | _ => none

/-- Parse the comma-separated members of a non-empty object. -/
def parse_members : Nat → List Char →
    Option (List (List Char × JVal) × List Char)
  | 0, _ => none
  | fuel + 1, s =>
      match json_ws s with
      | '"' :: rest =>
          match parse_string_body rest with
          | none => none
          | some (key, r) =>
              match json_ws r with
              | ':' :: r2 =>
                  match parse_value fuel r2 with
                  | none => none
                  | some (v, r3) =>
                      match json_ws r3 with
                      | ',' :: r4 =>
                          match parse_members fuel r4 with
                          | some (fs, r5) => some ((key, v) :: fs, r5)
                          | none => none
                      | '\x7d' :: r4 => some ([(key, v)], r4)
                      | _ => none
              | _ => none
      | _ => none

end

/-- `json.loads(line)`: parse one JSON value covering the whole line;
`none` models the `ValueError` the library raises on malformed input. -/
def json_loads (line : List Char) : Option JVal :=
  match parse_value (line.length + 1) line with
  | some (v, rest) => if json_ws rest = [] then some v else none
  | none => none

/-- The slice of `NodeServer` state `_recv_out` reads and writes. -/
structure RecvState where
  lastpong : Option Rat
  config : JVal
  nsmgr : Option Nat
  node_connected : Bool
  inq : Bool
  rqq : Option (List (List Char × JVal))
deriving Repr

/-- An exception propagating out of `_recv_out`. -/
inductive RecvErr
  | valueError
  | typeError
  | notImplementedError
deriving DecidableEq, Repr

/-- Side effects `_recv_out` requests beyond its own state. -/
inductive RAction
  | updateConfig (cfg : JVal)
  | sendStatistics
  | killProc
  | sendPing
  | logBadCommand (command : List Char)
deriving Repr

/-- `arguments.get(key, None)` on a JSON object. -/
def jget (args : JVal) (key : List Char) : Option JVal :=
  match args with
  | .obj fields => fields.lookup key
  | _ => none

/-- The command dispatch of `_recv_out`, after the message is decoded and
split into its first key and that key's value. -/
def recv_dispatch (st : RecvState) (profile : Nat) (now : Rat)
    (command : List Char) (args : JVal) :
    Except RecvErr (RecvState × List RAction) :=
  if command = "pong".toList then
    .ok ({ st with lastpong := some now }, [])
  else if command = "config".toList then
    .ok ({ st with config := args }, [.updateConfig args])
  else if command = "install".toList then
    .error .notImplementedError
  else if command = "manager".toList then
    let op : Option String :=
      match jget args "op".toList with
      | some (.str s) => some (String.mk s)
      | _ => none
    .ok ({ st with nsmgr := (manager_step st.nsmgr profile op).1 }, [])
  else if command = "statistics".toList then
    .ok (st, [.sendStatistics])
  else if command = "exit".toList then
    .ok ({ st with node_connected := false, inq := false, rqq := none },
      [.killProc])
  else if command = "connected".toList then
    .ok ({ st with node_connected := true }, [.sendPing])
  else if command = "disconnected".toList then
    .ok ({ st with node_connected := false }, [])
  else if String.mk command ∈ handler_commands then
    match st.rqq with
    | some q => .ok ({ st with rqq := some (q ++ [(command, args)]) }, [])
    | none => .ok (st, [.logBadCommand command])
  else .ok (st, [.logBadCommand command])

/-- `NodeServer._recv_out` on one delivered line: decode it with
`json.loads` — unguarded, so a malformed line is an exception, not a
logged-and-dropped event — then take the first key as the command code and
dispatch. -/
def recv_out (st : RecvState) (profile : Nat) (now : Rat)
    (line : List Char) : Except RecvErr (RecvState × List RAction) :=
  match json_loads line with
  | none => .error .valueError
  | some msg =>
      match msg with
      | .obj ((command, args) :: _) => recv_dispatch st profile now command args
      | _ => .error .typeError

/-- A quiescent server state: stdio child, request queue present. -/
def st_demo : RecvState := ⟨none, .obj [], none, false, true, some []⟩

/-- C3: a line that is not well-formed JSON makes `_recv_out` raise
`ValueError` out of the decode step (no error log, no dispatch, no state
change happens inside `_recv_out`; the exception escapes into the reader
thread), contrary to the claimed log-at-error-and-discard behavior.  A
well-formed line on the same state is processed normally, showing the
decode model is not degenerate. -/
theorem C3_malformed_line_raises :
    recv_out st_demo 1 0 "not json".toList = .error .valueError ∧
      json_loads "not json".toList = none ∧
      recv_out st_demo 1 0 "\x7b\"pong\": \x7b\x7d\x7d".toList =
        .ok ({ st_demo with lastpong := some 0 }, []) :=
  ⟨rfl, rfl, rfl⟩

end Polyglot
